import Mathlib

/-!
Verification of the PostHog Redshift export plugin (`src/index.ts`, with the
historical `exportEvents` variant in `src/unnamed/part_000`).

The development shallowly embeds the plugin's pure core: the event
normalizer (`onEvent` / `parseEvent`), the multi-row INSERT statement
builder (`insertBatchIntoRedshift`), the retry callback, the connection
lifecycle of `executeQuery`, the SQL identifier sanitizer and the
configuration clamping in `setupPlugin`.  JavaScript runtime values are
modelled by the inductive `JsVal`; host runtime primitives that the code
delegates to (`JSON.stringify`, `parseInt`, `new Date(x).toISOString()`)
are modelled explicitly, the date conversion being kept as an abstract
parameter except for the fixed fact that `new Date(undefined)` is an
invalid date whose ISO conversion throws.
-/

namespace Redshift

/-- A JavaScript runtime value, as far as the plugin inspects one:
`undefined`, `null`, booleans, (integral) numbers, strings, arrays and
plain objects given as ordered key/value lists. -/
inductive JsVal where
  | undefined : JsVal
  | null : JsVal
  | bool (b : Bool) : JsVal
  | num (n : Int) : JsVal
  | str (s : String) : JsVal
  | arr (xs : List JsVal) : JsVal
  | obj (fs : List (String × JsVal)) : JsVal

/-- JavaScript truthiness: `undefined`, `null`, `false`, `0` and the empty
string are falsy; every object and array is truthy. -/
def truthy : JsVal → Bool
  | .undefined => false
  | .null => false
  | .bool b => b
  | .num n => n != 0
  | .str s => s != ""
  | .arr _ => true
  | .obj _ => true

/-- The JavaScript `a || b` operator on values: the first operand when it
is truthy, the second otherwise. -/
def jsOr (a b : JsVal) : JsVal :=
  if truthy a then a else b

/-- Optional-chained property access `v?.[k]`: `undefined` unless `v` is an
object carrying the key. -/
def propGet (v : JsVal) (k : String) : JsVal :=
  match v with
  | .obj fs =>
    match fs.lookup k with
    | some w => w
    | none => .undefined
  | _ => .undefined

/-- Escape of one character inside a JSON string literal, as produced by
the host runtime's `JSON.stringify`. -/
def jsonEscapeChar (c : Char) : String :=
  if c = '"' then "\\\""
  else if c = '\\' then "\\\\"
  else if c = '\n' then "\\n"
  else if c = '\r' then "\\r"
  else if c = '\t' then "\\t"
  else if c.toNat < 32 then
    "\\u00" ++ String.mk [Nat.digitChar (c.toNat / 16), Nat.digitChar (c.toNat % 16)]
  else String.mk [c]

/-- JSON string literal for `s`, double quotes included. -/
def jsonQuote (s : String) : String :=
  "\"" ++ s.data.foldl (fun acc c => acc ++ jsonEscapeChar c) "" ++ "\""

mutual

/-- Model of the host runtime's `JSON.stringify`: `none` exactly when the
input is `undefined` (where `JSON.stringify` returns `undefined` rather
than a string).  Inside arrays an `undefined` entry prints as `null`;
inside objects a field bound to `undefined` is dropped. -/
def jsonStringify : JsVal → Option String
  | .undefined => none
  | .null => some "null"
  | .bool b => some (if b then "true" else "false")
  | .num n => some (toString n)
  | .str s => some (jsonQuote s)
  | .arr xs => some ("[" ++ String.intercalate "," (jsonArrItems xs) ++ "]")
  | .obj fs => some ("\x7b" ++ String.intercalate "," (jsonObjItems fs) ++ "\x7d")

/-- Printed items of a JSON array, in order. -/
def jsonArrItems : List JsVal → List String
  | [] => []
  | x :: xs => ((jsonStringify x).getD "null") :: jsonArrItems xs

/-- Printed `"key":value` items of a JSON object, in order, skipping
fields bound to `undefined`. -/
def jsonObjItems : List (String × JsVal) → List String
  | [] => []
  | (k, v) :: fs =>
    match jsonStringify v with
    | none => jsonObjItems fs
    | some s => (jsonQuote k ++ ":" ++ s) :: jsonObjItems fs

end

/-- `JSON.stringify` as the plugin observes it on its (always defined)
arguments; an `undefined` top-level argument would print as the token
`undefined`, which the plugin's `x || \x7b\x7d` guards rule out. -/
def stringifyD (v : JsVal) : String :=
  (jsonStringify v).getD "undefined"

/-- `sanitizeSqlIdentifier` (src/index.ts lines 201-203):
`unquotedIdentifier.replace(/[^\w\d_]+/g, '')`, i.e. deletion of every
character that is not ASCII alphanumeric or underscore. -/
def sanitizeSqlIdentifier (s : String) : String :=
  String.mk (s.data.filter (fun c => c.isAlphanum || c = '_'))

/-- `sanitizeSqlIdentifier` of the `exportEvents` variant
(src/unnamed/part_000 lines 209-211): `replace(/[^\w\d_.]+/g, '')`, which
additionally keeps dots. -/
def sanitizeSqlIdentifierDotted (s : String) : String :=
  String.mk (s.data.filter (fun c => c.isAlphanum || c = '_' || c = '.'))

/-- Model of the host runtime's `parseInt(s)` (radix 10, as the plugin
uses it on its numeric config strings): skip leading whitespace, read an
optional sign and then a maximal run of decimal digits; `none` stands for
`NaN` (no digit found). -/
def parseIntJS (s : String) : Option Int :=
  let cs := s.data.dropWhile (fun c => c = ' ' || c = '\t' || c = '\n' || c = '\r')
  let signRest : Int × List Char :=
    match cs with
    | '-' :: r => (-1, r)
    | '+' :: r => (1, r)
    | r => (1, r)
  let ds := signRest.2.takeWhile Char.isDigit
  if ds.isEmpty then none
  else some (signRest.1 * ((ds.foldl (fun a c => 10 * a + (c.toNat - 48)) 0 : Nat) : Int))

/-- The JavaScript idiom `parseInt(s) || d`: the parsed value unless it is
`NaN` or `0`, in which case the default. -/
def parseIntOrDefault (s : String) (d : Int) : Int :=
  match parseIntJS s with
  | none => d
  | some n => if n = 0 then d else n

/-- The configuration fields `setupPlugin` (src/index.ts lines 55-108)
reads to size the buffer. -/
structure PluginConfig where
  uploadMegabytes : String
  uploadMinutes : String

/-- `Math.max(1, Math.min(parseInt(config.uploadMegabytes) || 1, 10))`
(src/index.ts line 59). -/
def uploadMegabytesOf (c : PluginConfig) : Int :=
  max 1 (min (parseIntOrDefault c.uploadMegabytes 1) 10)

/-- `Math.max(1, Math.min(parseInt(config.uploadMinutes) || 1, 60))`
(src/index.ts line 60). -/
def uploadMinutesOf (c : PluginConfig) : Int :=
  max 1 (min (parseIntOrDefault c.uploadMinutes 1) 60)

/-- The buffer's byte limit, `uploadMegabytes * 1024 * 1024`
(src/index.ts line 95). -/
def bufferLimitOf (c : PluginConfig) : Int :=
  uploadMegabytesOf c * 1024 * 1024

/-- The buffer's flush time window in seconds, `timeoutSeconds:
uploadMinutes` (src/index.ts line 96, the clamped minutes value passed
directly as seconds). -/
def bufferTimeoutSecondsOf (c : PluginConfig) : Int :=
  uploadMinutesOf c

/-- The flush time window the claim describes: the upload-interval option
clamped to [1,600] seconds (spec section 4.2). -/
def claimTimeWindow (s : String) : Int :=
  max 1 (min (parseIntOrDefault s 1) 600)

/-- The incoming `PluginEvent` as `onEvent` (src/index.ts lines 110-154)
destructures it.  `event`, `distinct_id` and `team_id` are required by the
scaffold's type; the remaining fields may be absent (`JsVal.undefined`). -/
structure PluginEvent where
  event : String
  properties : JsVal
  set : JsVal
  set_once : JsVal
  distinct_id : String
  team_id : Int
  ip : JsVal
  site_url : JsVal
  now : JsVal
  sent_at : JsVal
  uuid : JsVal
  timestamp : JsVal

/-- The row object `onEvent` builds (src/index.ts lines 137-149).  The
four serialized fields and the timestamp are genuine strings; the fields
copied through unchanged keep their runtime value. -/
structure NormalizedRow where
  uuid : JsVal
  eventName : String
  properties : String
  elements : String
  set : String
  set_once : String
  distinct_id : String
  team_id : Int
  ip : JsVal
  site_url : JsVal
  timestamp : String

/-- `const ip = properties?.['$ip'] || event.ip` (src/index.ts line 125). -/
def rowIp (e : PluginEvent) : JsVal :=
  jsOr (propGet e.properties "$ip") e.ip

/-- `const timestamp = event.timestamp || properties?.timestamp || now ||
sent_at` (src/index.ts line 126). -/
def tsCandidate (e : PluginEvent) : JsVal :=
  jsOr e.timestamp (jsOr (propGet e.properties "timestamp") (jsOr e.now e.sent_at))

/-- Model of the host runtime's `new Date(x).toISOString()` used at
src/index.ts line 148.  `dstr` abstracts the runtime's date parsing and
canonical printing on defined values; the one fixed fact the code relies
on is that `new Date(undefined)` is an invalid date, so converting it (or
any value `dstr` cannot parse) throws `RangeError: Invalid time value`. -/
def jsToISO (dstr : JsVal → Option String) : JsVal → Except String String
  | .undefined => .error "RangeError: Invalid time value"
  | v =>
    match dstr v with
    | some s => .ok s
    | none => .error "RangeError: Invalid time value"

/-- Lines 127-135 of src/index.ts: `ingestedProperties` starts as
`properties` and `elements` as `[]`; only for an `$autocapture` event
whose (truthy object) properties carry the key `$elements` is that key
split out of the properties and its value moved to `elements`. -/
def elemSplit (eventName : String) (props : JsVal) : JsVal × JsVal :=
  match props with
  | .obj fs =>
    if eventName = "$autocapture" ∧ (fs.lookup "$elements").isSome then
      (.obj (fs.filter (fun p => p.1 ≠ "$elements")), (fs.lookup "$elements").getD .undefined)
    else (.obj fs, .arr [])
  | _ => (props, .arr [])

/-- The normalization performed by `onEvent` (src/index.ts lines 110-149)
before the ignore-check and buffer add: pure except for the date
conversion of the selected timestamp candidate, which throws on an
invalid date. -/
def parseEventJS (dstr : JsVal → Option String) (e : PluginEvent) :
    Except String NormalizedRow :=
  let split := elemSplit e.event e.properties
  match jsToISO dstr (tsCandidate e) with
  | .error m => .error m
  | .ok iso =>
    .ok
      { uuid := e.uuid
        eventName := e.event
        properties := stringifyD (jsOr split.1 (.obj []))
        elements := stringifyD (jsOr split.2 (.obj []))
        set := stringifyD (jsOr e.set (.obj []))
        set_once := stringifyD (jsOr e.set_once (.obj []))
        distinct_id := e.distinct_id
        team_id := e.team_id
        ip := rowIp e
        site_url := e.site_url
        timestamp := iso }

/-- The `ParsedEvent` interface (src/index.ts lines 27-39), the row shape
consumed by the insert statement builder. -/
structure ParsedEvent where
  uuid : String
  eventName : String
  properties : String
  elements : String
  set : String
  set_once : String
  distinct_id : String
  team_id : Int
  ip : String
  site_url : String
  timestamp : String
deriving DecidableEq

/-- `InsertQueryValue = string | number` (src/index.ts line 41). -/
inductive IQV where
  | s (v : String) : IQV
  | n (v : Int) : IQV
deriving DecidableEq

/-- The 11 values one row contributes, in the spread order of src/index.ts
line 169. -/
def eventValues (e : ParsedEvent) : List IQV :=
  [.s e.uuid, .s e.eventName, .s e.properties, .s e.elements, .s e.set,
   .s e.set_once, .s e.distinct_id, .n e.team_id, .s e.ip, .s e.site_url,
   .s e.timestamp]

/-- The inner loop of src/index.ts lines 163-165: the 11 placeholders of
row `i` (0-based column `j` from `List.range 11`, so `11*i + j + 1` is the
source's `11*i + j` for 1-based `j`), comma-separated with no separator
after the last. -/
def rowPlaceholders (i : Nat) : String :=
  (List.range 11).foldl
    (fun acc j => acc ++ "$" ++ toString (11 * i + j + 1) ++ (if j = 10 then "" else ", "))
    ""

/-- One iteration of the outer loop's string building (src/index.ts lines
162-166): `' ('`, the placeholders, `')'`, and a trailing comma unless
this is the last row. -/
def rowGroup (len i : Nat) : String :=
  " (" ++ rowPlaceholders i ++ ")" ++ (if i = len - 1 then "" else ",")

/-- The outer loop of src/index.ts lines 159-171, as structural recursion
on the remaining rows carrying the loop counter `i`: accumulates the
VALUES clause text and the flat positional-value list. -/
def insertLoop (len : Nat) : Nat → List ParsedEvent → String × List IQV
  | _, [] => ("", [])
  | i, e :: rest =>
    let tail := insertLoop len (i + 1) rest
    (rowGroup len i ++ tail.1, eventValues e ++ tail.2)

/-- The query text and positional values `insertBatchIntoRedshift`
(src/index.ts lines 156-180) hands to `executeQuery`, chunked exactly as
the source's template literal. -/
def insertBatchStatement (table : String) (batch : List ParsedEvent) :
    String × List IQV :=
  let l := insertLoop batch.length 0 batch
  ("INSERT INTO " ++ table ++
    " (uuid, event, properties, elements, set, set_once, distinct_id, team_id, ip, site_url, timestamp)\n        VALUES "
    ++ l.1, l.2)

/-- `UploadJobPayload` (src/index.ts lines 43-47). -/
structure UploadJobPayload where
  batch : List ParsedEvent
  batchId : Nat
  retriesPerformedSoFar : Nat
deriving DecidableEq

/-- The error callback `insertBatchIntoRedshift` passes to `executeQuery`
(src/index.ts lines 181-196), run once the query settles: given the
reported error (if any), it returns the log lines it prints and the at
most one retry job it enqueues (the rescheduled payload with the delay in
milliseconds).  The callback itself never throws. -/
def uploadRetryCallback (err : Option String) (p : UploadJobPayload) :
    List String × Option (UploadJobPayload × Nat) :=
  match err with
  | none => ([], none)
  | some msg =>
    let errLog := "(Batch Id: " ++ toString p.batchId ++ ") Error uploading to Redshift: " ++ msg
    if p.retriesPerformedSoFar ≥ 15 then ([errLog], none)
    else
      let nextRetryMs := 2 ^ p.retriesPerformedSoFar * 3000
      ([errLog, "Enqueued batch " ++ toString p.batchId ++ " for retry in " ++ toString nextRetryMs ++ "ms"],
        some ({ p with retriesPerformedSoFar := p.retriesPerformedSoFar + 1 }, nextRetryMs))

/-- Observable actions on the pg client during one `executeQuery` call. -/
inductive DbEv where
  | connect : DbEv
  | queryStmt : DbEv
  | cbNull : DbEv
  | cbErr : DbEv
  | endClient : DbEv
deriving DecidableEq

/-- Behaviour of the caller-supplied callback: whether its invocation on
`null` and on an error returns normally (`true`) or raises (`false`).
The `setupPlugin` callback, for instance, raises on an error. -/
structure CbModel where
  nullReturns : Bool
  errReturns : Bool

/-- Control flow of `executeQuery` (src/index.ts lines 205-228) once the
client has connected: `try { query; callback(null) } catch
{ callback(err) }` followed by `pgClient.end()`.  Returns the ordered
event trace and whether the call raised to its caller (an uncaught throw
of the error callback skips the `end`). -/
def executeQuery (queryOk : Bool) (cb : CbModel) : List DbEv × Bool :=
  if queryOk then
    if cb.nullReturns then ([.connect, .queryStmt, .cbNull, .endClient], false)
    else
      -- callback(null) threw inside the try, so the catch runs callback(err)
      if cb.errReturns then ([.connect, .queryStmt, .cbNull, .cbErr, .endClient], false)
      else ([.connect, .queryStmt, .cbNull, .cbErr], true)
  else
    if cb.errReturns then ([.connect, .queryStmt, .cbErr, .endClient], false)
    else ([.connect, .queryStmt, .cbErr], true)

/-- Control flow of the `exportEvents` variant's `executeQuery`
(src/unnamed/part_000 lines 183-203): `try { connect; query } catch
{ error = err } finally { end }`, returning whether an error was captured;
`end` runs on every path. -/
def executeQueryFin (connectOk queryOk : Bool) : List DbEv × Bool :=
  if connectOk then
    if queryOk then ([.connect, .queryStmt, .endClient], false)
    else ([.connect, .queryStmt, .endClient], true)
  else ([.connect, .endClient], true)

/-- Join a list of strings with a separator (spec-side rendering of the
claims' comma-separated lists). -/
def sepJoin (sep : String) : List String → String
  | [] => ""
  | [x] => x
  | x :: y :: xs => x ++ sep ++ sepJoin sep (y :: xs)

/-- The placeholder the claim assigns to row `i`, column `j` (both
0-based): index `11*i + j + 1`. -/
def specPlaceholder (i j : Nat) : String :=
  "$" ++ toString (11 * i + j + 1)

/-- The claim's placeholder group for row `i`: the 11 placeholders joined
by `", "` in parentheses, each group preceded by a space. -/
def specRowGroup (i : Nat) : String :=
  " (" ++ sepJoin ", " ((List.range 11).map (specPlaceholder i)) ++ ")"

/-- The claim's VALUES clause for `n` rows: the `n` groups joined by
commas. -/
def specValuesClause (n : Nat) : String :=
  sepJoin "," ((List.range n).map specRowGroup)

lemma rowPlaceholders_eq_spec (i : Nat) :
    rowPlaceholders i = sepJoin ", " ((List.range 11).map (specPlaceholder i)) := by
  have h : List.range 11 = [0, 1, 2, 3, 4, 5, 6, 7, 8, 9, 10] := rfl
  simp [rowPlaceholders, specPlaceholder, sepJoin, h, String.append_assoc,
    String.empty_append, String.append_empty]

lemma sepJoin_cons_ne (sep x : String) (xs : List String) (hxs : xs ≠ []) :
    sepJoin sep (x :: xs) = x ++ sep ++ sepJoin sep xs := by
  cases xs with
  | nil => exact absurd rfl hxs
  | cons y ys => rfl

lemma insertLoop_eq_spec (len : Nat) (batch : List ParsedEvent) :
    ∀ i : Nat, i + batch.length = len →
      insertLoop len i batch =
        (sepJoin "," ((List.range' i batch.length).map (fun k => " (" ++ rowPlaceholders k ++ ")")),
         (batch.map eventValues).flatten) := by
  induction batch with
  | nil => intro i _; rfl
  | cons e rest ih =>
    intro i h
    have h2 : (i + 1) + rest.length = len := by
      simp only [List.length_cons] at h; omega
    have hrec := ih (i + 1) h2
    have hstep : insertLoop len i (e :: rest) =
        (rowGroup len i ++ (insertLoop len (i + 1) rest).1,
         eventValues e ++ (insertLoop len (i + 1) rest).2) := rfl
    rw [hstep, hrec]
    simp only [List.length_cons, List.range'_succ, List.map_cons, List.map_nil,
      List.flatten_cons, Prod.mk.injEq]
    cases rest with
    | nil =>
      have hi : i = len - 1 := by simp only [List.length_cons, List.length_nil] at h; omega
      refine ⟨?_, trivial⟩
      simp [rowGroup, hi, sepJoin, String.append_empty]
    | cons r rs =>
      have hi : i ≠ len - 1 := by simp only [List.length_cons] at h; omega
      refine ⟨?_, trivial⟩
      rw [sepJoin_cons_ne _ _ _ (by simp [List.range'_succ])]
      simp [rowGroup, if_neg hi, String.append_assoc]

/-- C1: for every table name and non-empty batch, the built INSERT
statement carries the exact 11-name column list, a VALUES clause whose
row-`i`, column-`j` placeholder is `$(11*i + j + 1)`, and the flat
row-major concatenation of each row's 11 values as positional values. -/
theorem insert_builder_spec (table : String) (batch : List ParsedEvent)
    (_hne : batch ≠ []) :
    insertBatchStatement table batch =
      ("INSERT INTO " ++ table ++
        " (uuid, event, properties, elements, set, set_once, distinct_id, team_id, ip, site_url, timestamp)\n        VALUES "
        ++ specValuesClause batch.length,
       (batch.map eventValues).flatten) := by
  have h := insertLoop_eq_spec batch.length batch 0 (by simp)
  have hfun : (fun k => " (" ++ rowPlaceholders k ++ ")") = specRowGroup := by
    funext k
    show " (" ++ rowPlaceholders k ++ ")" = specRowGroup k
    rw [rowPlaceholders_eq_spec]
    rfl
  simp only [insertBatchStatement, h, hfun, specValuesClause, List.range_eq_range']

/-- First sample row of the spec's 2-row statement-builder example. -/
def sampleRow1 : ParsedEvent :=
  ⟨"u1", "e1", "\x7b\x7d", "", "\x7b\x7d", "\x7b\x7d", "d1", 1, "127.0.0.1", "", "t1"⟩

/-- Second sample row of the spec's 2-row statement-builder example. -/
def sampleRow2 : ParsedEvent :=
  ⟨"u2", "e2", "\x7b\x7d", "", "\x7b\x7d", "\x7b\x7d", "d1", 1, "127.0.0.1", "", "t2"⟩

/-- Witness for C1 at the spec's concrete 2-row example. -/
theorem insert_builder_spec_witness :
    ([sampleRow1, sampleRow2] ≠ ([] : List ParsedEvent)) ∧
    insertBatchStatement "posthog_event" [sampleRow1, sampleRow2] =
      ("INSERT INTO posthog_event (uuid, event, properties, elements, set, set_once, distinct_id, team_id, ip, site_url, timestamp)\n        VALUES "
        ++ specValuesClause 2,
       (([sampleRow1, sampleRow2]).map eventValues).flatten) :=
  ⟨by decide, insert_builder_spec "posthog_event" [sampleRow1, sampleRow2] (by decide)⟩

/-- C2: a batch whose delivery fails with `retriesPerformedSoFar ≥ 15` is
abandoned: the error callback enqueues no retry job and emits only the
error log line (the callback body contains no throw, so nothing is raised
to the caller). -/
theorem abandoned_at_retry_ceiling (msg : String) (p : UploadJobPayload)
    (h : p.retriesPerformedSoFar ≥ 15) :
    (uploadRetryCallback (some msg) p).2 = none ∧
    (uploadRetryCallback (some msg) p).1 =
      ["(Batch Id: " ++ toString p.batchId ++ ") Error uploading to Redshift: " ++ msg] := by
  simp [uploadRetryCallback, h]

/-- Witness for C2 at a failed batch that already retried 15 times. -/
theorem abandoned_at_retry_ceiling_witness :
    (⟨[], 7, 15⟩ : UploadJobPayload).retriesPerformedSoFar ≥ 15 ∧
    (uploadRetryCallback (some "boom") ⟨[], 7, 15⟩).2 = none ∧
    (uploadRetryCallback (some "boom") ⟨[], 7, 15⟩).1 =
      ["(Batch Id: " ++ toString (7 : Nat) ++ ") Error uploading to Redshift: " ++ "boom"] :=
  ⟨by decide, abandoned_at_retry_ceiling "boom" ⟨[], 7, 15⟩ (by decide)⟩

/-- C3: a batch whose delivery fails with `retriesPerformedSoFar < 15`
enqueues exactly one retry, delayed `3000 * 2^retriesPerformedSoFar`
milliseconds, whose payload carries the same rows and batchId with the
retry counter incremented. -/
theorem retry_scheduled_below_ceiling (msg : String) (p : UploadJobPayload)
    (h : p.retriesPerformedSoFar < 15) :
    (uploadRetryCallback (some msg) p).2 =
      some ({ batch := p.batch, batchId := p.batchId,
              retriesPerformedSoFar := p.retriesPerformedSoFar + 1 },
            3000 * 2 ^ p.retriesPerformedSoFar) := by
  have h2 : ¬ p.retriesPerformedSoFar ≥ 15 := by omega
  simp [uploadRetryCallback, h2, Nat.mul_comm]

/-- Witness for C3 at a first failure (`retriesPerformedSoFar = 0`):
one retry after 3000 ms carrying counter 1. -/
theorem retry_scheduled_below_ceiling_witness :
    (⟨[sampleRow1], 3, 0⟩ : UploadJobPayload).retriesPerformedSoFar < 15 ∧
    (uploadRetryCallback (some "boom") ⟨[sampleRow1], 3, 0⟩).2 =
      some (⟨[sampleRow1], 3, 1⟩, 3000) :=
  ⟨by decide, retry_scheduled_below_ceiling "boom" ⟨[sampleRow1], 3, 0⟩ (by decide)⟩

/-- C6: both sanitizer variants return only ASCII alphanumerics and
underscores (plus dots in the dotted variant), deleting every other
character; on the spec's example no whitespace or punctuation survives. -/
theorem sanitize_only_safe_chars (s : String) :
    ((sanitizeSqlIdentifier s).data.all (fun c => c.isAlphanum || c = '_')) ∧
    ((sanitizeSqlIdentifierDotted s).data.all (fun c => c.isAlphanum || c = '_' || c = '.')) ∧
    sanitizeSqlIdentifier "my table; DROP" = "mytableDROP" ∧
    sanitizeSqlIdentifierDotted "my table; DROP" = "mytableDROP" := by
  refine ⟨?_, ?_, by decide, by decide⟩
  · show ((s.data.filter _).all _) = true
    simp only [List.all_eq_true]
    intro c hc
    exact (List.mem_filter.mp hc).2
  · show ((s.data.filter _).all _) = true
    simp only [List.all_eq_true]
    intro c hc
    exact (List.mem_filter.mp hc).2

lemma filter_idem {α : Type} (p : α → Bool) (l : List α) :
    (l.filter p).filter p = l.filter p := by
  induction l with
  | nil => rfl
  | cons a l ih =>
    by_cases h : p a <;> simp [List.filter_cons, h, ih]

/-- C9: both sanitizer variants are idempotent — an already sanitized
identifier is unchanged by a second pass. -/
theorem sanitize_idempotent (s : String) :
    sanitizeSqlIdentifier (sanitizeSqlIdentifier s) = sanitizeSqlIdentifier s ∧
    sanitizeSqlIdentifierDotted (sanitizeSqlIdentifierDotted s) = sanitizeSqlIdentifierDotted s := by
  constructor
  · show String.mk (List.filter _ (List.filter _ s.data)) = String.mk (List.filter _ s.data)
    rw [filter_idem]
  · show String.mk (List.filter _ (List.filter _ s.data)) = String.mk (List.filter _ s.data)
    rw [filter_idem]

/-- C7 counterexample: with `uploadMinutes = "100"` the buffer's flush
time window is clamped to 60 seconds, not the 100 the claimed [1,600]
clamp of the upload-interval option would give. -/
theorem time_window_clamp_counterexample :
    bufferTimeoutSecondsOf ⟨"1", "100"⟩ = 60 ∧
    claimTimeWindow "100" = 100 ∧
    bufferTimeoutSecondsOf ⟨"1", "100"⟩ ≠ claimTimeWindow "100" := by
  decide

/-- C7 (amended): the byte limit is the upload-megabytes option clamped to
[1,10] MiB (default 1 when unparsable or 0) and the flush time window is
the upload-minutes option clamped to [1,60], passed directly as seconds. -/
theorem setup_buffer_config (c : PluginConfig) :
    bufferLimitOf c = max 1 (min (parseIntOrDefault c.uploadMegabytes 1) 10) * 1048576 ∧
    1048576 ≤ bufferLimitOf c ∧ bufferLimitOf c ≤ 10485760 ∧
    bufferLimitOf ⟨"not a number", "30"⟩ = 1048576 ∧
    bufferTimeoutSecondsOf c = max 1 (min (parseIntOrDefault c.uploadMinutes 1) 60) ∧
    1 ≤ bufferTimeoutSecondsOf c ∧ bufferTimeoutSecondsOf c ≤ 60 := by
  have hmb1 : (1 : Int) ≤ uploadMegabytesOf c := le_max_left 1 _
  have hmb10 : uploadMegabytesOf c ≤ 10 :=
    max_le (by norm_num) (min_le_right _ 10)
  have hmin1 : (1 : Int) ≤ uploadMinutesOf c := le_max_left 1 _
  have hmin60 : uploadMinutesOf c ≤ 60 :=
    max_le (by norm_num) (min_le_right _ 60)
  refine ⟨?_, ?_, ?_, by decide, rfl, hmin1, hmin60⟩
  · show uploadMegabytesOf c * 1024 * 1024 = uploadMegabytesOf c * 1048576
    ring
  · show (1048576 : Int) ≤ uploadMegabytesOf c * 1024 * 1024
    nlinarith
  · show uploadMegabytesOf c * 1024 * 1024 ≤ 10485760
    nlinarith

/-- C8 counterexample: when the statement errors and the error callback
itself raises, `executeQuery` never calls `end` on the client — the
connection is not released and the throw escapes to the caller. -/
theorem executeQuery_release_counterexample :
    (executeQuery false ⟨true, false⟩).1.count DbEv.endClient = 0 ∧
    (executeQuery false ⟨true, false⟩).2 = true := by
  decide

/-- C8 (amended): every `executeQuery` call connects a fresh client first
and runs exactly one statement; the client is released exactly when the
call does not raise, i.e. when the invoked callbacks return normally —
an error callback that raises skips the release.  The callback-free
`exportEvents` variant releases the client on every path (`finally`). -/
theorem executeQuery_lifecycle (queryOk : Bool) (cb : CbModel) :
    (executeQuery queryOk cb).1.count DbEv.connect = 1 ∧
    (executeQuery queryOk cb).1.count DbEv.queryStmt = 1 ∧
    (executeQuery queryOk cb).1.head? = some DbEv.connect ∧
    (executeQuery queryOk cb).1.count DbEv.endClient =
      (if (executeQuery queryOk cb).2 then 0 else 1) ∧
    ((executeQuery queryOk cb).2 =
      (if queryOk then !cb.nullReturns && !cb.errReturns else !cb.errReturns)) ∧
    ∀ co qo : Bool, (executeQueryFin co qo).1.count DbEv.endClient = 1 := by
  obtain ⟨n, e⟩ := cb
  cases queryOk <;> cases n <;> cases e <;>
    exact ⟨by decide, by decide, by decide, by decide, by decide,
      fun co qo => by cases co <;> cases qo <;> decide⟩

/-- An event carrying none of the candidate timestamp fields (and no
properties, set, set-once, ip, site-url or uuid). -/
def eventNoTimestamp : PluginEvent :=
  ⟨"pageview", .undefined, .undefined, .undefined, "d1", 1, .undefined, .undefined, .undefined, .undefined, .undefined, .undefined⟩

/-- C4 counterexample: when every candidate timestamp field is absent, the
normalization throws (`new Date(undefined).toISOString()` raises a
RangeError) instead of returning a row with empty defaults — even under a
date conversion that succeeds on every defined value. -/
theorem normalize_missing_timestamp_throws :
    parseEventJS (fun _ => some "1970-01-01T00:00:00.000Z") eventNoTimestamp =
      .error "RangeError: Invalid time value" := rfl

/-- C4 (amended): normalization is pure and total except for the
timestamp conversion: whenever the selected timestamp candidate converts,
it returns a row in which every absent field degrades to an empty default
(`\x7b\x7d` for properties/set/set_once, `[]` for elements). -/
theorem normalize_ok_with_defaults (dstr : JsVal → Option String)
    (e : PluginEvent) (iso : String)
    (h : jsToISO dstr (tsCandidate e) = .ok iso) :
    ∃ row : NormalizedRow, parseEventJS dstr e = .ok row ∧
      row.timestamp = iso ∧
      (e.properties = .undefined → row.properties = "\x7b\x7d") ∧
      (e.properties = .undefined → row.elements = "[]") ∧
      (e.set = .undefined → row.set = "\x7b\x7d") ∧
      (e.set_once = .undefined → row.set_once = "\x7b\x7d") := by
  unfold parseEventJS
  rw [h]
  refine ⟨_, rfl, rfl, ?_, ?_, ?_, ?_⟩ <;> intro hp <;> rw [hp] <;> rfl

/-- Witness for C4 (amended) at an event whose only populated fields are
the required ones and a string timestamp. -/
theorem normalize_ok_with_defaults_witness :
    jsToISO (fun _ => some "2022-08-18T15:42:32.597Z")
        (tsCandidate ⟨"pageview", .undefined, .undefined, .undefined, "d1", 1, .undefined, .undefined, .undefined, .undefined,
          .undefined, .str "2022-08-18T15:42:32.597Z"⟩) = .ok "2022-08-18T15:42:32.597Z" ∧
    ∃ row : NormalizedRow,
      parseEventJS (fun _ => some "2022-08-18T15:42:32.597Z")
          ⟨"pageview", .undefined, .undefined, .undefined, "d1", 1, .undefined, .undefined, .undefined, .undefined,
            .undefined, .str "2022-08-18T15:42:32.597Z"⟩ = .ok row ∧
      row.timestamp = "2022-08-18T15:42:32.597Z" ∧
      (JsVal.undefined = JsVal.undefined → row.properties = "\x7b\x7d") ∧
      (JsVal.undefined = JsVal.undefined → row.elements = "[]") ∧
      (JsVal.undefined = JsVal.undefined → row.set = "\x7b\x7d") ∧
      (JsVal.undefined = JsVal.undefined → row.set_once = "\x7b\x7d") :=
  ⟨rfl, normalize_ok_with_defaults (fun _ => some "2022-08-18T15:42:32.597Z") _ _ rfl⟩

/-- An `$autocapture` event whose `$elements` property is bound to the
falsy value `null`. -/
def autocaptureFalsyElements : PluginEvent :=
  ⟨"$autocapture", .obj [("$elements", .null)], .undefined, .undefined, "d1", 1,
    .undefined, .undefined, .undefined, .undefined, .undefined, .str "2022"⟩

/-- C5 counterexample: for an `$autocapture` event whose properties bind
`$elements` to the falsy value `null`, the row's elements field is
`"\x7b\x7d"`, not the serialization `"null"` of that key's value. -/
theorem elements_falsy_counterexample :
    (parseEventJS (fun _ => some "T") autocaptureFalsyElements).toOption.map
        NormalizedRow.elements = some "\x7b\x7d" ∧
    stringifyD JsVal.null = "null" ∧
    (parseEventJS (fun _ => some "T") autocaptureFalsyElements).toOption.map
        NormalizedRow.elements ≠ some (stringifyD JsVal.null) := by
  refine ⟨rfl, rfl, by decide⟩

/-- C5 (amended): whenever the timestamp candidate converts, an
`$autocapture` event whose properties carry `$elements` yields a row whose
properties serialize the original properties with the `$elements` key
removed and whose elements field serializes that key's value when it is
truthy (and is `"\x7b\x7d"` when the value is falsy); every other event
yields `"[]"` for elements and serializes its properties unchanged. -/
theorem elements_split_spec (dstr : JsVal → Option String) (e : PluginEvent)
    (iso : String) (h : jsToISO dstr (tsCandidate e) = .ok iso) :
    (∀ fs v, e.properties = .obj fs → e.event = "$autocapture" →
      fs.lookup "$elements" = some v →
      (parseEventJS dstr e).toOption.map NormalizedRow.properties =
        some (stringifyD (.obj (fs.filter (fun p => p.1 ≠ "$elements")))) ∧
      (parseEventJS dstr e).toOption.map NormalizedRow.elements =
        some (if truthy v then stringifyD v else "\x7b\x7d")) ∧
    ((e.event ≠ "$autocapture" ∨ ∀ fs, e.properties = .obj fs → fs.lookup "$elements" = none) →
      (parseEventJS dstr e).toOption.map NormalizedRow.elements = some "[]" ∧
      (parseEventJS dstr e).toOption.map NormalizedRow.properties =
        some (stringifyD (jsOr e.properties (.obj [])))) := by
  have hok : parseEventJS dstr e = .ok
      { uuid := e.uuid
        eventName := e.event
        properties := stringifyD (jsOr (elemSplit e.event e.properties).1 (.obj []))
        elements := stringifyD (jsOr (elemSplit e.event e.properties).2 (.obj []))
        set := stringifyD (jsOr e.set (.obj []))
        set_once := stringifyD (jsOr e.set_once (.obj []))
        distinct_id := e.distinct_id
        team_id := e.team_id
        ip := rowIp e
        site_url := e.site_url
        timestamp := iso } := by
    unfold parseEventJS
    rw [h]
  constructor
  · intro fs v hfs hev hlook
    have hsplit : elemSplit e.event e.properties =
        (.obj (fs.filter (fun p => p.1 ≠ "$elements")), v) := by
      rw [hfs, hev]
      simp [elemSplit, hlook]
    rw [hok]
    simp only [Except.toOption, Option.map_some]
    constructor
    · simp [hsplit, jsOr, truthy]
    · cases htv : truthy v <;> (simp [hsplit, jsOr, htv]; try rfl)
  · intro hyp
    have hsplit : elemSplit e.event e.properties = (e.properties, .arr []) := by
      cases hep : e.properties <;> simp only [elemSplit]
      case obj fs =>
        have hcond : ¬ (e.event = "$autocapture" ∧ (fs.lookup "$elements").isSome) := by
          rintro ⟨ha, hb⟩
          rcases hyp with h1 | h2
          · exact h1 ha
          · rw [h2 fs hep] at hb
            simp at hb
        rw [if_neg hcond]
    rw [hok]
    simp only [Except.toOption, Option.map_some]
    constructor
    · simp only [hsplit, jsOr, truthy]
      rfl
    · simp [hsplit]

/-- The spec's autocapture example event: `properties = \x7b$elements:
[...], a: 1\x7d`. -/
def autocaptureExample : PluginEvent :=
  ⟨"$autocapture", .obj [("$elements", .arr [.num 1]), ("a", .num 1)], .undefined, .undefined,
    "d1", 1, .undefined, .undefined, .undefined, .undefined, .undefined, .str "2022"⟩

/-- Witness for C5 (amended) at the spec's autocapture example: the row's
properties serialize to the object without `$elements` and its elements
field serializes the moved array. -/
theorem elements_split_spec_witness :
    (parseEventJS (fun _ => some "T") autocaptureExample).toOption.map
        NormalizedRow.properties = some "\x7b\"a\":1\x7d" ∧
    (parseEventJS (fun _ => some "T") autocaptureExample).toOption.map
        NormalizedRow.elements = some "[1]" := by
  obtain ⟨h1, h2⟩ :=
    (elements_split_spec (fun _ => some "T") autocaptureExample "T" rfl).1
      [("$elements", .arr [.num 1]), ("a", .num 1)] (.arr [.num 1]) rfl rfl rfl
  exact ⟨h1, h2⟩

/-- C10: the row's ip is selected by truthiness, not key presence — a
`$ip` property bound to a falsy value is passed over in favour of the
event's own ip field, both in the `ip` binding and in the resulting row. -/
theorem ip_selected_by_truthiness (dstr : JsVal → Option String)
    (e : PluginEvent) (fs : List (String × JsVal)) (v : JsVal)
    (hp : e.properties = .obj fs) (hv : fs.lookup "$ip" = some v)
    (hf : truthy v = false) :
    rowIp e = e.ip ∧
    ∀ row : NormalizedRow, parseEventJS dstr e = .ok row → row.ip = e.ip := by
  have h1 : rowIp e = e.ip := by
    rw [rowIp, hp]
    simp [propGet, hv, jsOr, hf]
  refine ⟨h1, ?_⟩
  intro row hrow
  unfold parseEventJS at hrow
  cases hts : jsToISO dstr (tsCandidate e) with
  | error m => rw [hts] at hrow; cases hrow
  | ok iso =>
    rw [hts] at hrow
    cases hrow
    exact h1

/-- Witness for C10 at an event whose `$ip` property is the empty string:
the row ip is the event's own ip. -/
theorem ip_selected_by_truthiness_witness :
    rowIp ⟨"e", .obj [("$ip", .str "")], .undefined, .undefined, "d1", 1, .str "10.0.0.1",
      .undefined, .undefined, .undefined, .undefined, .str "2022"⟩ =
      JsVal.str "10.0.0.1" :=
  (ip_selected_by_truthiness (fun _ => some "T")
    ⟨"e", .obj [("$ip", .str "")], .undefined, .undefined, "d1", 1, .str "10.0.0.1",
      .undefined, .undefined, .undefined, .undefined, .str "2022"⟩
    [("$ip", .str "")] (.str "") rfl rfl rfl).1

end Redshift
